import Mathlib

/-!
# Verification of the `iris` concurrent optimization engine

A shallow embedding of the parts of the `iris`/`pyphase` repository that the
specification's claims are about, together with theorems settling each claim.

Modelled source files:
* `src/iris/utilities.py` — diagnostic-stream parser (`parse_cost_by_iter_lbfgsb`),
  result assemblers (`prepare_document_local` / `prepare_document_global`) and the
  document correction routines (`correct_global_document`,
  `recheck_min_rrmswfe_document`);
* `src/iris/recipes/main.py` — `opt_routine` (pool creation, callback/parse
  assembly, pool teardown);
* `src/pyphase/recipes/axis_solve.py` — `sph_from_focusdiverse_axial_mtf` and
  `optfcn`;
* `src/iris/data/persistent_queue.py` — `PersistentQueue`.

Python floats are modelled as `ℚ`: every routine under study only compares,
copies and re-emits the values (no rounding-sensitive arithmetic), so the
ordering-faithful exact model is adequate.  The Python literal `1e99` is
modelled as the exact rational `10 ^ 99`; all comparisons performed by the code
against it are order-comparisons, which agree with the float behaviour for the
values appearing in the claims.
-/

set_option maxRecDepth 16000

namespace Iris

/-! ## `src/iris/data/persistent_queue.py` — `PersistentQueue`

The object state is the in-memory deque `self.q` together with the contents of
the pickle file at `self.path` (`disk`).  `persist` writes the in-memory queue
to the file. -/

structure PersistentQueue (α : Type) where
  q : List α
  disk : List α
deriving DecidableEq

/-- `persist` (lines 46–49): `pickle.dump(self.q, file)` — the file now holds
the current in-memory queue. -/
def PersistentQueue.persist {α : Type} (s : PersistentQueue α) : PersistentQueue α :=
  { s with disk := s.q }

/-- `put` (lines 51–58): `self.q.append(item); self.persist()`. -/
def PersistentQueue.put {α : Type} (s : PersistentQueue α) (item : α) : PersistentQueue α :=
  PersistentQueue.persist { s with q := s.q ++ [item] }

/-- `get` (lines 60–68): `return self.q.popleft()` followed by `self.persist()`.
The method exits at the `return` statement, so the `self.persist()` call on the
next line never executes: the file contents are untouched.  `popleft()` on an
empty deque raises `IndexError`, modelled as `none`. -/
def PersistentQueue.get {α : Type} (s : PersistentQueue α) :
    Option (α × PersistentQueue α) :=
  match s.q with
  | [] => none
  | x :: rest => some (x, { s with q := rest })

/-- `peek` (lines 70–79): `popleft` then `appendleft` of the same item, return
it; the queue is restored and nothing is persisted. -/
def PersistentQueue.peek {α : Type} (s : PersistentQueue α) :
    Option (α × PersistentQueue α) :=
  match s.q with
  | [] => none
  | x :: rest => some (x, { s with q := x :: rest })

/-- `mark_done` (lines 81–84): `self.q.popleft(); self.persist()`. -/
def PersistentQueue.mark_done {α : Type} (s : PersistentQueue α) :
    Option (PersistentQueue α) :=
  match s.q with
  | [] => none
  | _ :: rest => some (PersistentQueue.persist { s with q := rest })

/-! ## Pool creation — `main.py` line 74 / `axis_solve.py` line 182

`Pool(processes=os.cpu_count() - 1, initializer=..., initargs=[_globals])`.
`multiprocessing.Pool` requires `processes ≥ 1` (it raises `ValueError`
otherwise), so validity of the requested size is tracked separately. -/

/-- The number of worker processes the code requests: `os.cpu_count() - 1`,
computed in `ℤ` (Python integers do not truncate at zero). -/
def pool_process_count (cpu_count : Nat) : Int :=
  (cpu_count : Int) - 1

/-- A pool as configured at creation time: requested process count, plus the
context dictionary passed once via `initializer`/`initargs` (each worker runs
the initializer exactly once when it starts). -/
structure PoolConfig (Ctx : Type) where
  processes : Int
  initCtx : Ctx
deriving DecidableEq

/-- `Pool(processes=os.cpu_count() - 1, initializer=prepare_globals,
initargs=[_globals])` — the broadcast context is fixed at creation time. -/
def make_pool {Ctx : Type} (cpu_count : Nat) (ctx : Ctx) : PoolConfig Ctx :=
  { processes := pool_process_count cpu_count, initCtx := ctx }

/-- `multiprocessing.Pool` accepts the request only when `processes ≥ 1`. -/
def pool_request_valid (n : Int) : Prop := 1 ≤ n

instance (n : Int) : Decidable (pool_request_valid n) := by
  unfold pool_request_valid; infer_instance

/-! ## Pool teardown control flow — `main.py` 73–112, `axis_solve.py` 182–221

The observable pool-lifecycle events of one call, in program order.
`opt_routine` wraps the body in `try ... finally: if pool is not None:
pool.close(); pool.join()`.  `sph_from_focusdiverse_axial_mtf` always creates
a pool and uses `try: ...; pool.close(); pool.join(); return result
except Exception as e: pool.close(); pool.join(); raise e`.  The body outcome
distinguishes a normal return from an exception raised by the solver or by a
worker evaluation (such exceptions are instances of `Exception`, so the
`except Exception` clause catches them before re-raising). -/

inductive PoolEv
  | create
  | close
  | join
  | ret
  | raiseExc
deriving DecidableEq

inductive BodyOutcome
  | success
  | raisesExc
deriving DecidableEq

/-- Pool-lifecycle event trace of `opt_routine` (`main.py`): pool creation only
when `parallel is True`; the `finally` block runs `close`/`join` (guarded by
`pool is not None`) before the return value is delivered or the exception
propagates. -/
def opt_routine_pool_events (parallel : Bool) (body : BodyOutcome) : List PoolEv :=
  (if parallel then [PoolEv.create] else []) ++
    (if parallel then [PoolEv.close, PoolEv.join] else []) ++
    (match body with
     | BodyOutcome.success => [PoolEv.ret]
     | BodyOutcome.raisesExc => [PoolEv.raiseExc])

/-- Pool-lifecycle event trace of `sph_from_focusdiverse_axial_mtf`
(`axis_solve.py`): the pool is always created; on success `close`/`join` run
before `return result`; on an `Exception` from the body the `except` clause
runs `close`/`join` and re-raises. -/
def axis_solve_pool_events (body : BodyOutcome) : List PoolEv :=
  PoolEv.create ::
    (match body with
     | BodyOutcome.success => [PoolEv.close, PoolEv.join, PoolEv.ret]
     | BodyOutcome.raisesExc => [PoolEv.close, PoolEv.join, PoolEv.raiseExc])

/-! ## `src/iris/utilities.py` 87–110 — `parse_cost_by_iter_lbfgsb`

The function is
`re.findall(r'At iterate\s*\d*?\s*f=\s*-*?\d*.\d*D[+-]\d*', string)`, then for
each match `s.split()[-1]`, then `float(s.replace('D', 'E'))`.

Every quantifier in the pattern applies to a single-character class, so the
pattern is embedded as a flat token list and matched with a backtracking
matcher implementing Python `re` semantics: alternatives are explored leftmost,
a greedy star first tries to consume another character, a lazy star first tries
the rest of the pattern.  The matcher carries fuel; its recursion depth is
bounded by `input length + pattern length + 1` (every call either shortens the
input or the remaining pattern), so the supplied fuel is never exhausted. -/

/-- One token of the (flat) regular expression. -/
inductive RTok
  | lit (c : Char)
  | cls (p : Char → Bool)
  | starG (p : Char → Bool)
  | starL (p : Char → Bool)

/-- Python `\s` for ASCII text: space, tab, newline, carriage return, form
feed, vertical tab. -/
def isSpaceRe (c : Char) : Bool :=
  c = ' ' || c = '\t' || c = '\n' || c = '\x0d' || c = '\x0c' || c = '\x0b'

/-- Backtracking matcher at a fixed start position: returns the remaining
input after the match found first in Python exploration order, or `none`. -/
def reMatch (fuel : Nat) (toks : List RTok) (cs : List Char) : Option (List Char) :=
  match fuel with
  | 0 => none
  | fuel + 1 =>
    match toks, cs with
    | [], rest => some rest
    | RTok.lit _ :: _, [] => none
    | RTok.lit c :: ts, x :: rest => if x = c then reMatch fuel ts rest else none
    | RTok.cls _ :: _, [] => none
    | RTok.cls p :: ts, x :: rest => if p x then reMatch fuel ts rest else none
    | RTok.starG _ :: ts, [] => reMatch fuel ts []
    | RTok.starG p :: ts, x :: rest =>
      if p x then
        match reMatch fuel (RTok.starG p :: ts) rest with
        | some r => some r
        | none => reMatch fuel ts (x :: rest)
      else reMatch fuel ts (x :: rest)
    | RTok.starL p :: ts, cs' =>
      match reMatch fuel ts cs' with
      | some r => some r
      | none =>
        match cs' with
        | [] => none
        | x :: rest => if p x then reMatch fuel (RTok.starL p :: ts) rest else none

/-- `re.findall`: scan start positions left to right; after a (necessarily
nonempty, for this pattern) match, continue scanning at the match end. -/
def reFindAllAux (fuel : Nat) (toks : List RTok) (cs : List Char) :
    List (List Char) :=
  match fuel with
  | 0 => []
  | fuel + 1 =>
    match cs with
    | [] => []
    | _ :: rest =>
      match reMatch (cs.length + toks.length + 2) toks cs with
      | some remaining =>
        let k := cs.length - remaining.length
        if k = 0 then [] :: reFindAllAux fuel toks rest
        else cs.take k :: reFindAllAux fuel toks remaining
      | none => reFindAllAux fuel toks rest

def reFindAll (toks : List RTok) (cs : List Char) : List (List Char) :=
  reFindAllAux (cs.length + 1) toks cs

/-- The pattern `At iterate\s*\d*?\s*f=\s*-*?\d*.\d*D[+-]\d*` as a token list.
The unescaped `.` is "any character except newline" (`re.DOTALL` is off). -/
def lbfgsbPattern : List RTok :=
  [RTok.lit 'A', RTok.lit 't', RTok.lit ' ',
   RTok.lit 'i', RTok.lit 't', RTok.lit 'e', RTok.lit 'r',
   RTok.lit 'a', RTok.lit 't', RTok.lit 'e',
   RTok.starG isSpaceRe,
   RTok.starL Char.isDigit,
   RTok.starG isSpaceRe,
   RTok.lit 'f', RTok.lit '=',
   RTok.starG isSpaceRe,
   RTok.starL (fun c => c = '-'),
   RTok.starG Char.isDigit,
   RTok.cls (fun c => c ≠ '\n'),
   RTok.starG Char.isDigit,
   RTok.lit 'D',
   RTok.cls (fun c => c = '+' || c = '-'),
   RTok.starG Char.isDigit]

/-- Python `str.split()` with no argument: split on runs of whitespace,
discarding empty pieces. -/
def pySplitWs (cs : List Char) : List (List Char) :=
  go cs []
where
  go : List Char → List Char → List (List Char)
    | [], cur => if cur.isEmpty then [] else [cur.reverse]
    | x :: rest, cur =>
      if isSpaceRe x then
        if cur.isEmpty then go rest [] else cur.reverse :: go rest []
      else go rest (x :: cur)

/-- Parse a run of decimal digits; returns (value, digit count, rest). -/
def parseDigits (cs : List Char) : Nat × Nat × List Char :=
  match cs with
  | [] => (0, 0, [])
  | c :: rest =>
    if c.isDigit then
      let (v, n, r) := parseDigits rest
      -- most significant digit first: fold by carrying the prefix value
      (((c.toNat - '0'.toNat) * 10 ^ n + v), n + 1, r)
    else (0, 0, cs)

/-- Python `float(s)` on the decimal/exponent strings reachable here
(`[+-]?digits[.digits][E[+-]digits]`, at least one mantissa digit, at least
one exponent digit when `E` is present); any other string raises `ValueError`,
modelled as `none`.  Exact rational semantics: each such literal denotes a
rational exactly and the claims only involve values that are also exact
floats. -/
def pyFloat (cs : List Char) : Option ℚ :=
  let (sign, cs1) :=
    match cs with
    | '-' :: rest => ((-1 : Int), rest)
    | '+' :: rest => ((1 : Int), rest)
    | _ => ((1 : Int), cs)
  let (ip, ipn, cs2) := parseDigits cs1
  let (fp, fpn, cs3) :=
    match cs2 with
    | '.' :: rest => parseDigits rest
    | _ => (0, 0, cs2)
  if ipn + fpn = 0 then none
  else
    -- sign * ip.fp = sign * (ip * 10^fpn + fp) / 10^fpn, exactly
    let mantNum : Int := sign * ((ip * 10 ^ fpn + fp : Nat) : Int)
    let mantDen : Nat := 10 ^ fpn
    match cs3 with
    | [] => some (mkRat mantNum mantDen)
    | e :: rest =>
      if e = 'E' || e = 'e' then
        let (esign, rest1) :=
          match rest with
          | '-' :: r => (true, r)
          | '+' :: r => (false, r)
          | _ => (false, rest)
        let (ev, en, rest2) := parseDigits rest1
        if en = 0 then none
        else if rest2.isEmpty then
          some (if esign then mkRat mantNum (mantDen * 10 ^ ev)
                else mkRat (mantNum * 10 ^ ev) mantDen)
        else none
      else none

/-- `parse_cost_by_iter_lbfgsb` (`utilities.py` 87–110): find all iterate
lines, take the last whitespace-separated token of each match
(`s.split()[-1]`; `IndexError` on an all-whitespace match aborts the list
comprehension), replace `D` with `E`, and convert with `float` (a `ValueError`
aborts the call).  An aborting exception is modelled as `none`. -/
def parse_cost_by_iter_lbfgsb (s : String) : Option (List ℚ) :=
  let found := reFindAll lbfgsbPattern s.toList
  (found.mapM (fun m => (pySplitWs m).getLast?)).bind fun fortran_values =>
    fortran_values.mapM fun tok =>
      pyFloat (tok.map (fun c => if c = 'D' then 'E' else c))

/-! ## Result assembly — `main.py` 79–108 and `axis_solve.py` 184–217

After `minimize` returns, both drivers attach to the solver result the
parameter-vector history and the parsed cost history.  The inputs are the
caller's guess, the sequence of vectors the callback appended (one per
accepted iteration) and the captured diagnostic text.  Neither driver compares
the lengths of the two sequences. -/

structure OptRoutineResult where
  x_iter : List (List ℚ)
  fun_iter : List ℚ
deriving DecidableEq

/-- `opt_routine` (`main.py`): `parameter_vectors.append(np.asarray(guess))`
runs before `minimize`, the callback appends each accepted iterate, and after
the solver returns `result.x_iter = parameter_vectors` and
`result.fun_iter = parse_cost_by_iter_lbfgsb(out['txt'])` are attached with no
reconciliation.  A parse failure (`none`) aborts the call. -/
def opt_routine_assemble (guess : List ℚ) (callbackVecs : List (List ℚ))
    (captured : String) : Option OptRoutineResult :=
  let parameter_vectors := guess :: callbackVecs
  (parse_cost_by_iter_lbfgsb captured).map fun cost_by_iter =>
    { x_iter := parameter_vectors, fun_iter := cost_by_iter }

/-- `sph_from_focusdiverse_axial_mtf` (`axis_solve.py`): the callback fills
`parameter_vectors` during the solve; afterwards
`parameter_vectors.insert(0, np.asarray(guess))` puts the guess at index 0,
then `x_iter`/`fun_iter` are attached exactly as in `opt_routine`. -/
def axis_solve_assemble (guess : List ℚ) (callbackVecs : List (List ℚ))
    (captured : String) : Option OptRoutineResult :=
  let parameter_vectors := guess :: callbackVecs
  (parse_cost_by_iter_lbfgsb captured).map fun cost_by_iter =>
    { x_iter := parameter_vectors, fun_iter := cost_by_iter }

/-! ## Objective function — `axis_solve.py` 85–110, `optfcn`

`optfcn` builds one pupil from the trial coefficients and then runs
`costfcn = pool.starmap(partial(realize_focus_plane, pupil),
zip(t_true, s_true, defocus_pupils)); return net_costfcn_reducer(costfcn)`.
`Pool.starmap` returns results in argument order, so the per-plane cost list
follows the plane list order.  `realize_focus_plane` calls into `prysm` (an
external library), so the per-plane evaluation is abstracted as an arbitrary
function of the plane data (for a fixed trial vector the same function is
applied to every plane). -/

/-- One focus plane's data: truth tangential/sagittal MTF rows and the
precomputed defocus contribution (entries of `zip(t_true, s_true,
defocus_pupils)`). -/
structure FocusPlane where
  t_true : List ℚ
  s_true : List ℚ
  defocus : ℚ
deriving DecidableEq

/-- Modelled from the spec: `net_costfcn_reducer` is defined in
`pyphase/util.py`, which is not under `src/`; spec §4.3 describes it as a
commutative, order-independent reduction — "sum or RMS of residuals" — of the
per-plane scalars.  Modelled as the sum of the per-plane costs. -/
def net_costfcn_reducer (costs : List ℚ) : ℚ := costs.sum

/-- `optfcn` for a fixed trial coefficient vector: `rfp` is
`partial(realize_focus_plane, pupil)` and `planes` the zipped plane list; the
pool's `starmap` preserves input order. -/
def optfcn (rfp : FocusPlane → ℚ) (planes : List FocusPlane) : ℚ :=
  net_costfcn_reducer (planes.map rfp)

/-! ## Result documents — `utilities.py` 113–324

`prepare_document_local` / `prepare_document_global` build the result dict;
`correct_global_document` and `recheck_min_rrmswfe_document` post-process a
global one.  Two views are embedded: the ordered key lists of the dict
literals (for the field-set claim), and a typed record carrying the numeric
payloads (for the minimum-tracking claims; the `sim_params` and `codex`
payloads are opaque to every routine studied and are represented by `Nat`
handles). -/

/-- The keys of the dict literal returned by `prepare_document_local`
(`utilities.py` 159–178), in source order. -/
def prepare_document_local_keys : List String :=
  ["global", "sim_params", "codex", "truth_params", "zernike_normed",
   "result_iter", "cost_iter", "rrmswfe_iter", "result_final", "truth_rmswfe",
   "cost_first", "cost_final", "rrmswfe_first", "rrmswfe_final", "time",
   "nit", "nfev", "nrandomstart"]

/-- The keys of the dict literal returned by `prepare_document_global`
(`utilities.py` 257–275), in source order. -/
def prepare_document_global_keys : List String :=
  ["global", "sim_params", "codex", "truth_params", "zernike_normed",
   "result_iter", "cost_iter", "rrmswfe_iter", "result_final", "truth_rmswfe",
   "cost_first", "cost_final", "rrmswfe_first", "rrmswfe_final", "time",
   "nrandomstart", "nit"]

/-- The stable field set named by the spec (§6). -/
def spec_field_set : List String :=
  ["sim_params", "codex", "truth_params", "truth_rmswfe", "zernike_normed",
   "result_iter", "cost_iter", "rrmswfe_iter", "result_final", "cost_first",
   "cost_final", "rrmswfe_first", "rrmswfe_final", "time", "nit", "nfev",
   "nrandomstart", "global"]

/-- The `1e99` sentinel initialising the minimum scans, modelled as the exact
rational `10 ^ 99` (only order comparisons against it occur). -/
def sentinel : ℚ := mkRat (10 ^ 99) 1

/-- Inner loop of the minimum scan
(`for idx2, item in enumerate(iterable): if item < lowest: ...`), carrying the
running `(o_idx, i_idx, lowest)` accumulator; `i` is the enumeration index. -/
def scan_row (idx1 : Nat) : Nat → Nat × Nat × ℚ → List ℚ → Nat × Nat × ℚ
  | _, acc, [] => acc
  | i, acc, x :: xs =>
    scan_row idx1 (i + 1) (if x < acc.2.2 then (idx1, i, x) else acc) xs

/-- Outer loop of the minimum scan
(`for idx1, iterable in enumerate(rows): ...`). -/
def scan_rows : Nat → Nat × Nat × ℚ → List (List ℚ) → Nat × Nat × ℚ
  | _, acc, [] => acc
  | i, acc, r :: rs => scan_rows (i + 1) (scan_row i 0 acc r) rs

/-- The minimum scan shared verbatim by `prepare_document_global` (lines
246–255) and `correct_global_document` (lines 294–300): starts from
`o_idx, i_idx = 0, 0` and `lowest = 1e99`, updates on strict `<`. -/
def find_lowest_idx (rows : List (List ℚ)) : Nat × Nat × ℚ :=
  scan_rows 0 (0, 0, sentinel) rows

/-- Python `min` over a list (`ValueError` on `[]`; the default `0` is never
relied upon — every use below is guarded by nonemptiness). -/
def pymin : List ℚ → ℚ
  | [] => 0
  | x :: xs => xs.foldl min x

/-- `min([min(v) for v in rows])` — the true minimum over all entries of a
nonempty list of nonempty rows. -/
def min_all (rows : List (List ℚ)) : ℚ := pymin (rows.map pymin)

/-- The solver-result object consumed by `prepare_document_global` in its
multi-start form: `x_iter`/`fun_iter` are lists over runs of per-iteration
lists.  (With the flat single-run shape the function's very first statement,
`nit = sum([len(i) for i in fiter])`, raises `TypeError` — `len` of a float —
so only the nested shape is reachable without an exception.) -/
structure GOptResult where
  x : List ℚ
  x_iter : List (List (List ℚ))
  f : ℚ
  fun_iter : List (List ℚ)
  time : ℚ
deriving DecidableEq

/-- The dict built by `prepare_document_global`, as a typed record
(`sim_params` and `codex` are opaque handles). -/
structure GlobalDoc where
  global_flag : Bool
  sim_params : Nat
  codex : Nat
  truth_params : List ℚ
  zernike_normed : Bool
  result_iter : List (List (List ℚ))
  cost_iter : List (List ℚ)
  rrmswfe_iter : List (List ℚ)
  result_final : List ℚ
  truth_rmswfe : ℚ
  cost_first : ℚ
  cost_final : ℚ
  rrmswfe_first : ℚ
  rrmswfe_final : ℚ
  time : ℚ
  nrandomstart : Nat
  nit : Nat
deriving DecidableEq

/-- `prepare_document_global` (`utilities.py` 181–275) on multi-start input
(`type(xiter[0]) is not list` is false for the nested shape, selecting the
`else` branch): `nit = sum(len(i) for i in fiter)`, `nstart = len(xiter)`,
first values from `[0][0]`, then the sentinel minimum scan selects
`(o_idx, i_idx)` and `rrmswfe_final = rrmswfe_iter[o_idx][i_idx]`,
`cost_final = fiter[o_idx][i_idx]` (out-of-range indexing, impossible on the
shapes produced by the scan and used below, is rendered by `getD`). -/
def prepare_document_global (sim_params codex : Nat) (truth_params : List ℚ)
    (truth_rmswfe : ℚ) (rrmswfe_iter : List (List ℚ)) (normed : Bool)
    (r : GOptResult) : GlobalDoc :=
  let nit := (r.fun_iter.map List.length).sum
  let nstart := r.x_iter.length
  let rrmswfe_first := (rrmswfe_iter.headD []).headD 0
  let cost_first := (r.fun_iter.headD []).headD 0
  let t := find_lowest_idx rrmswfe_iter
  { global_flag := true
    sim_params := sim_params
    codex := codex
    truth_params := truth_params
    zernike_normed := normed
    result_iter := r.x_iter
    cost_iter := r.fun_iter
    rrmswfe_iter := rrmswfe_iter
    result_final := r.x
    truth_rmswfe := truth_rmswfe
    cost_first := cost_first
    cost_final := (r.fun_iter.getD t.1 []).getD t.2.1 0
    rrmswfe_first := rrmswfe_first
    rrmswfe_final := (rrmswfe_iter.getD t.1 []).getD t.2.1 0
    time := r.time
    nrandomstart := nstart
    nit := nit }

/-- `correct_global_document` (`utilities.py` 278–303): shallow-copy the
document, rerun the sentinel minimum scan over `rrmswfe_iter`, and overwrite
`rrmswfe_final` and `cost_final` at the selected `(o_idx, i_idx)`. -/
def correct_global_document (d : GlobalDoc) : GlobalDoc :=
  let t := find_lowest_idx d.rrmswfe_iter
  { d with
    rrmswfe_final := (d.rrmswfe_iter.getD t.1 []).getD t.2.1 0
    cost_final := (d.cost_iter.getD t.1 []).getD t.2.1 0 }

/-- `recheck_min_rrmswfe_document` (`utilities.py` 306–324): shallow-copy the
document and overwrite `rrmswfe_final` with
`min([min(v) for v in rrmswfe_iter])`; no other key is touched. -/
def recheck_min_rrmswfe_document (d : GlobalDoc) : GlobalDoc :=
  { d with rrmswfe_final := pymin (d.rrmswfe_iter.map pymin) }

/-! ## Helper lemmas about the sentinel minimum scan and Python `min` -/

lemma scan_row_val_le (idx1 : Nat) :
    ∀ (row : List ℚ) (i : Nat) (acc : Nat × Nat × ℚ),
      (scan_row idx1 i acc row).2.2 ≤ acc.2.2 := by
  intro row
  induction row with
  | nil => intro i acc; exact le_refl _
  | cons x xs ih =>
    intro i acc
    simp only [scan_row]
    refine le_trans (ih (i + 1) _) ?_
    by_cases h : x < acc.2.2
    · simp only [h, if_true]; exact le_of_lt h
    · simp [h]

lemma scan_row_val_le_mem (idx1 : Nat) :
    ∀ (row : List ℚ) (i : Nat) (acc : Nat × Nat × ℚ), ∀ x ∈ row,
      (scan_row idx1 i acc row).2.2 ≤ x := by
  intro row
  induction row with
  | nil => intro i acc x hx; exact absurd hx (List.not_mem_nil x)
  | cons y ys ih =>
    intro i acc x hx
    rcases List.mem_cons.mp hx with rfl | hx
    · simp only [scan_row]
      refine le_trans (scan_row_val_le idx1 ys (i + 1) _) ?_
      by_cases h : x < acc.2.2
      · simp [h]
      · simpa [h] using le_of_not_lt h
    · simp only [scan_row]
      exact ih (i + 1) _ x hx

lemma scan_row_cases (idx1 : Nat) :
    ∀ (row : List ℚ) (i : Nat) (acc : Nat × Nat × ℚ),
      scan_row idx1 i acc row = acc ∨
        ∃ j, j < row.length ∧
          scan_row idx1 i acc row = (idx1, i + j, row.getD j 0) := by
  intro row
  induction row with
  | nil => intro i acc; exact Or.inl rfl
  | cons y ys ih =>
    intro i acc
    simp only [scan_row]
    rcases ih (i + 1) (if y < acc.2.2 then (idx1, i, y) else acc) with h | ⟨j, hj, h⟩
    · by_cases hy : y < acc.2.2
      · right
        refine ⟨0, Nat.succ_pos _, ?_⟩
        rw [h]
        simp [hy]
      · left
        rw [h]
        simp [hy]
    · right
      refine ⟨j + 1, by simpa using Nat.succ_lt_succ hj, ?_⟩
      have hidx : i + 1 + j = i + (j + 1) := by omega
      rw [h, List.getD_cons_succ, hidx]

lemma scan_rows_val_le :
    ∀ (rs : List (List ℚ)) (i : Nat) (acc : Nat × Nat × ℚ),
      (scan_rows i acc rs).2.2 ≤ acc.2.2 := by
  intro rs
  induction rs with
  | nil => intro i acc; exact le_refl _
  | cons r rs ih =>
    intro i acc
    simp only [scan_rows]
    exact le_trans (ih (i + 1) _) (scan_row_val_le i r 0 acc)

lemma scan_rows_val_le_mem :
    ∀ (rs : List (List ℚ)) (i : Nat) (acc : Nat × Nat × ℚ),
      ∀ r ∈ rs, ∀ x ∈ r, (scan_rows i acc rs).2.2 ≤ x := by
  intro rs
  induction rs with
  | nil => intro i acc r hr; exact absurd hr (List.not_mem_nil r)
  | cons r0 rs ih =>
    intro i acc r hr x hx
    rcases List.mem_cons.mp hr with rfl | hr
    · simp only [scan_rows]
      exact le_trans (scan_rows_val_le rs (i + 1) _) (scan_row_val_le_mem i r 0 acc x hx)
    · simp only [scan_rows]
      exact ih (i + 1) _ r hr x hx

lemma scan_rows_cases :
    ∀ (rs : List (List ℚ)) (i : Nat) (acc : Nat × Nat × ℚ),
      scan_rows i acc rs = acc ∨
        ∃ o j, o < rs.length ∧ j < (rs.getD o []).length ∧
          scan_rows i acc rs = (i + o, j, (rs.getD o []).getD j 0) := by
  intro rs
  induction rs with
  | nil => intro i acc; exact Or.inl rfl
  | cons r0 rs ih =>
    intro i acc
    simp only [scan_rows]
    rcases ih (i + 1) (scan_row i 0 acc r0) with h | ⟨o, j, ho, hj, h⟩
    · rcases scan_row_cases i r0 0 acc with h2 | ⟨j, hj, h2⟩
      · left
        rw [h, h2]
      · right
        refine ⟨0, j, Nat.succ_pos _, by simpa using hj, ?_⟩
        rw [h, h2]
        simp
    · right
      refine ⟨o + 1, j, by simpa using Nat.succ_lt_succ ho, by simpa using hj, ?_⟩
      have hidx : i + 1 + o = i + (o + 1) := by omega
      rw [h, List.getD_cons_succ, hidx]

lemma list_getD_mem {α : Type} :
    ∀ (l : List α) (n : Nat) (d : α), n < l.length → l.getD n d ∈ l := by
  intro l
  induction l with
  | nil => intro n d h; simp at h
  | cons x xs ih =>
    intro n d h
    cases n with
    | zero => simp
    | succ m =>
      simp only [List.getD_cons_succ]
      exact List.mem_cons_of_mem _ (ih m d (by simpa using h))

lemma foldl_min_le_init : ∀ (xs : List ℚ) (a : ℚ), xs.foldl min a ≤ a := by
  intro xs
  induction xs with
  | nil => intro a; exact le_refl a
  | cons x xs ih =>
    intro a
    simp only [List.foldl_cons]
    exact le_trans (ih (min a x)) (min_le_left a x)

lemma foldl_min_le_mem : ∀ (xs : List ℚ) (a : ℚ), ∀ x ∈ xs, xs.foldl min a ≤ x := by
  intro xs
  induction xs with
  | nil => intro a x hx; exact absurd hx (List.not_mem_nil x)
  | cons y ys ih =>
    intro a x hx
    rcases List.mem_cons.mp hx with rfl | hx
    · simp only [List.foldl_cons]
      exact le_trans (foldl_min_le_init ys (min a x)) (min_le_right a x)
    · simp only [List.foldl_cons]
      exact ih (min a y) x hx

lemma foldl_min_mem : ∀ (xs : List ℚ) (a : ℚ), xs.foldl min a = a ∨ xs.foldl min a ∈ xs := by
  intro xs
  induction xs with
  | nil => intro a; exact Or.inl rfl
  | cons y ys ih =>
    intro a
    simp only [List.foldl_cons]
    rcases ih (min a y) with h | h
    · rw [h]
      rcases le_total a y with hay | hya
      · left
        exact min_eq_left hay
      · right
        rw [min_eq_right hya]
        exact List.mem_cons_self y ys
    · right
      exact List.mem_cons_of_mem _ h

lemma pymin_mem (l : List ℚ) (hl : l ≠ []) : pymin l ∈ l := by
  cases l with
  | nil => exact absurd rfl hl
  | cons x xs =>
    simp only [pymin]
    rcases foldl_min_mem xs x with h | h
    · rw [h]
      exact List.mem_cons_self x xs
    · exact List.mem_cons_of_mem _ h

lemma pymin_le (l : List ℚ) : ∀ x ∈ l, pymin l ≤ x := by
  intro x hx
  cases l with
  | nil => exact absurd hx (List.not_mem_nil x)
  | cons y ys =>
    rcases List.mem_cons.mp hx with rfl | hx
    · exact foldl_min_le_init ys x
    · exact foldl_min_le_mem ys y x hx

lemma min_all_entry (rows : List (List ℚ)) (hne : rows ≠ [])
    (hrows : ∀ r ∈ rows, r ≠ []) : ∃ r ∈ rows, min_all rows ∈ r := by
  have h1 : rows.map pymin ≠ [] := by
    simpa using hne
  have h2 := pymin_mem (rows.map pymin) h1
  rw [List.mem_map] at h2
  obtain ⟨r, hr, hpr⟩ := h2
  exact ⟨r, hr, by rw [min_all, ← hpr]; exact pymin_mem r (hrows r hr)⟩

lemma min_all_le (rows : List (List ℚ)) :
    ∀ r ∈ rows, ∀ x ∈ r, min_all rows ≤ x := by
  intro r hr x hx
  have h1 : pymin r ∈ rows.map pymin := List.mem_map_of_mem pymin hr
  exact le_trans (pymin_le _ _ h1) (pymin_le r x hx)

/-- The sentinel scan, on a nonempty list of nonempty rows all of whose
entries are below the sentinel, returns a valid index pair whose entry it also
returns as the value, and that value is the true minimum over all entries. -/
lemma find_lowest_idx_spec (rows : List (List ℚ)) (hne : rows ≠ [])
    (hrows : ∀ r ∈ rows, r ≠ [])
    (hlt : ∀ r ∈ rows, ∀ x ∈ r, x < sentinel) :
    (find_lowest_idx rows).1 < rows.length ∧
    (find_lowest_idx rows).2.1 < (rows.getD (find_lowest_idx rows).1 []).length ∧
    (rows.getD (find_lowest_idx rows).1 []).getD (find_lowest_idx rows).2.1 0
        = (find_lowest_idx rows).2.2 ∧
    (find_lowest_idx rows).2.2 = min_all rows := by
  obtain ⟨r0, hr0⟩ : ∃ r, r ∈ rows := List.exists_mem_of_ne_nil rows hne
  obtain ⟨x0, hx0⟩ : ∃ x, x ∈ r0 := List.exists_mem_of_ne_nil r0 (hrows r0 hr0)
  have hub : (find_lowest_idx rows).2.2 ≤ x0 :=
    scan_rows_val_le_mem rows 0 _ r0 hr0 x0 hx0
  have hlt0 : (find_lowest_idx rows).2.2 < sentinel :=
    lt_of_le_of_lt hub (hlt r0 hr0 x0 hx0)
  rcases scan_rows_cases rows 0 (0, 0, sentinel) with h | ⟨o, j, ho, hj, h⟩
  · exfalso
    have hv : (find_lowest_idx rows).2.2 = sentinel := by
      rw [find_lowest_idx, h]
    rw [hv] at hlt0
    exact lt_irrefl _ hlt0
  · have hfl : find_lowest_idx rows = (o, j, (rows.getD o []).getD j 0) := by
      rw [find_lowest_idx, h, Nat.zero_add]
    have hval_mem : (rows.getD o []).getD j 0 ∈ rows.getD o [] :=
      list_getD_mem _ j 0 hj
    have hrow_mem : rows.getD o [] ∈ rows := list_getD_mem _ o [] ho
    refine ⟨by rw [hfl]; exact ho, by rw [hfl]; exact hj, by rw [hfl], ?_⟩
    refine le_antisymm ?_ ?_
    · obtain ⟨rm, hrm, hmm⟩ := min_all_entry rows hne hrows
      exact scan_rows_val_le_mem rows 0 _ rm hrm _ hmm
    · rw [hfl]
      exact min_all_le rows _ hrow_mem _ hval_mem

/-! ## Concrete fixtures used by counterexamples and witnesses -/

/-- A captured diagnostic text with an iterate-0 and an iterate-1 report line,
the latter exactly as in the claimed scenario. -/
def sample_lbfgsb_text : String :=
  "At iterate    0    f=  5.0000000D+00\nAt iterate    1    f=  3.0000000D+02"

/-- A global document whose residual entries are not all below the `1e99`
sentinel that initialises the minimum scans. -/
def big_entries_doc : GlobalDoc :=
  { global_flag := true, sim_params := 0, codex := 0, truth_params := [],
    zernike_normed := false, result_iter := [], cost_iter := [[7], [8]],
    rrmswfe_iter := [[mkRat (2 * 10 ^ 99) 1], [sentinel]], result_final := [],
    truth_rmswfe := 0, cost_first := 0, cost_final := 0, rrmswfe_first := 0,
    rrmswfe_final := 0, time := 0, nrandomstart := 2, nit := 2 }

/-- A concrete two-run global document whose residual entries are small (all
below the sentinel), with its minimum in the first run's second iteration. -/
def small_entries_doc : GlobalDoc :=
  { global_flag := true, sim_params := 0, codex := 0, truth_params := [],
    zernike_normed := false, result_iter := [], cost_iter := [[10, 20], [30]],
    rrmswfe_iter := [[2, 1], [3]], result_final := [],
    truth_rmswfe := 0, cost_first := 0, cost_final := 9, rrmswfe_first := 0,
    rrmswfe_final := 0, time := 0, nrandomstart := 2, nit := 2 }

/-! ## Claim theorems -/

/-- C1 counterexample: a run with one accepted iteration recorded by the
callback but a captured text containing no iterate line returns normally with
`x_iter` of length 2 and `fun_iter` of length 0 — the length mismatch is not
surfaced as an error (nor truncated or padded). -/
theorem C1_counterexample :
    opt_routine_assemble [2] [[3]] "" =
      some { x_iter := [[2], [3]], fun_iter := [] } ∧
    ([[(2 : ℚ)], [3]] : List (List ℚ)).length ≠ ([] : List ℚ).length := by
  exact ⟨by decide, by decide⟩

/-- C1 (amended): `opt_routine` (and the `axis_solve` driver) performs no
length reconciliation at assembly: whenever diagnostic parsing succeeds, the
result carries `x_iter = guess :: callback vectors` and `fun_iter = parsed
costs` verbatim — no truncation, no padding and no error — even when the two
lengths differ. -/
theorem C1_no_length_check_amended (guess : List ℚ) (cbs : List (List ℚ))
    (txt : String) (costs : List ℚ)
    (h : parse_cost_by_iter_lbfgsb txt = some costs) :
    opt_routine_assemble guess cbs txt =
      some { x_iter := guess :: cbs, fun_iter := costs } ∧
    axis_solve_assemble guess cbs txt =
      some { x_iter := guess :: cbs, fun_iter := costs } := by
  unfold opt_routine_assemble axis_solve_assemble
  rw [h]
  exact ⟨rfl, rfl⟩

/-- Witness for C1 (amended) at a concrete mismatched input. -/
theorem C1_no_length_check_amended_witness :
    parse_cost_by_iter_lbfgsb "" = some [] ∧
    (opt_routine_assemble [2] [[3]] "" =
        some { x_iter := [[2], [3]], fun_iter := [] } ∧
      axis_solve_assemble [2] [[3]] "" =
        some { x_iter := [[2], [3]], fun_iter := [] }) :=
  ⟨by decide, C1_no_length_check_amended [2] [[3]] "" [] (by decide)⟩

/-- C2 counterexample: on a machine reporting one available core the code
requests `os.cpu_count() - 1 = 0` worker processes — not `max(1, 0) = 1` — and
`multiprocessing.Pool` rejects a zero-process request. -/
theorem C2_counterexample :
    pool_process_count 1 ≠ max 1 ((1 : Int) - 1) ∧
    ¬ pool_request_valid (pool_process_count 1) := by
  exact ⟨by decide, by decide⟩

/-- C2 (amended): for every reported core count of at least two, the pool is
created with exactly `cpu_count - 1 = max(1, cpu_count - 1) ≥ 1` worker
processes and the immutable context is broadcast once at pool-creation time
via the worker initializer; at a reported core count of one the request is 0
processes, which `Pool` rejects. -/
theorem C2_pool_size_amended {Ctx : Type} (cpu_count : Nat)
    (h : 2 ≤ cpu_count) (ctx : Ctx) :
    (make_pool cpu_count ctx).processes = max 1 ((cpu_count : Int) - 1) ∧
    pool_request_valid (make_pool cpu_count ctx).processes ∧
    (make_pool cpu_count ctx).initCtx = ctx := by
  have h1 : (1 : Int) ≤ (cpu_count : Int) - 1 := by omega
  refine ⟨?_, ?_, rfl⟩
  · show (cpu_count : Int) - 1 = max 1 ((cpu_count : Int) - 1)
    rw [max_eq_right h1]
  · exact h1

/-- Witness for C2 (amended) on a four-core machine. -/
theorem C2_pool_size_amended_witness :
    2 ≤ 4 ∧
    ((make_pool 4 (37 : Nat)).processes = max 1 ((4 : Int) - 1) ∧
      pool_request_valid (make_pool 4 (37 : Nat)).processes ∧
      (make_pool 4 (37 : Nat)).initCtx = 37) :=
  ⟨by decide, C2_pool_size_amended 4 (by decide) 37⟩

/-- C3: on every exit path of both drivers — normal return as well as an
exception raised by the solver or by a worker evaluation — a created pool is
closed and joined strictly before the call returns or the exception
propagates (the close and join events occur before the trace-final
return/raise event). -/
theorem C3_pool_teardown_every_path (parallel : Bool) (body : BodyOutcome)
    (h : PoolEv.create ∈ opt_routine_pool_events parallel body) :
    (PoolEv.close ∈ (opt_routine_pool_events parallel body).dropLast ∧
      PoolEv.join ∈ (opt_routine_pool_events parallel body).dropLast) ∧
    (PoolEv.close ∈ (axis_solve_pool_events body).dropLast ∧
      PoolEv.join ∈ (axis_solve_pool_events body).dropLast) := by
  cases parallel <;> cases body <;> revert h <;> decide

/-- Witness for C3: parallel run whose body raises. -/
theorem C3_pool_teardown_every_path_witness :
    PoolEv.create ∈ opt_routine_pool_events true BodyOutcome.raisesExc ∧
    ((PoolEv.close ∈ (opt_routine_pool_events true BodyOutcome.raisesExc).dropLast ∧
        PoolEv.join ∈ (opt_routine_pool_events true BodyOutcome.raisesExc).dropLast) ∧
      (PoolEv.close ∈ (axis_solve_pool_events BodyOutcome.raisesExc).dropLast ∧
        PoolEv.join ∈ (axis_solve_pool_events BodyOutcome.raisesExc).dropLast)) :=
  ⟨by decide, C3_pool_teardown_every_path true BodyOutcome.raisesExc (by decide)⟩

/-- C4: in both drivers the guess occupies index 0 of the returned parameter
history, the history has one entry more than the number of accepted
iterations, and a run with zero accepted iterations yields a history of
length exactly 1 whose sole element is the guess. -/
theorem C4_guess_recorded_iteration_zero (guess : List ℚ)
    (cbs : List (List ℚ)) (txt : String) (r r0 a0 : OptRoutineResult)
    (hr : opt_routine_assemble guess cbs txt = some r)
    (hr0 : opt_routine_assemble guess [] txt = some r0)
    (ha0 : axis_solve_assemble guess [] txt = some a0) :
    r.x_iter.head? = some guess ∧ r.x_iter.length = cbs.length + 1 ∧
    r0.x_iter = [guess] ∧ a0.x_iter = [guess] := by
  unfold opt_routine_assemble at hr hr0
  unfold axis_solve_assemble at ha0
  cases hp : parse_cost_by_iter_lbfgsb txt with
  | none =>
    rw [hp] at hr
    exact absurd hr (by simp)
  | some costs =>
    rw [hp] at hr hr0 ha0
    simp only [Option.map_some'] at hr hr0 ha0
    cases hr
    cases hr0
    cases ha0
    refine ⟨rfl, ?_, rfl, rfl⟩
    simp

/-- Witness for C4 at a concrete run with one accepted iteration and at runs
with zero accepted iterations. -/
theorem C4_guess_recorded_iteration_zero_witness :
    opt_routine_assemble [9] [[1]] "" = some { x_iter := [[9], [1]], fun_iter := [] } ∧
    opt_routine_assemble [9] [] "" = some { x_iter := [[9]], fun_iter := [] } ∧
    axis_solve_assemble [9] [] "" = some { x_iter := [[9]], fun_iter := [] } ∧
    (({ x_iter := [[9], [1]], fun_iter := [] } : OptRoutineResult).x_iter.head? =
        some [9] ∧
      ({ x_iter := [[(9 : ℚ)], [1]], fun_iter := [] } : OptRoutineResult).x_iter.length =
        [[(1 : ℚ)]].length + 1 ∧
      ({ x_iter := [[(9 : ℚ)]], fun_iter := [] } : OptRoutineResult).x_iter = [[9]] ∧
      ({ x_iter := [[(9 : ℚ)]], fun_iter := [] } : OptRoutineResult).x_iter = [[9]]) :=
  ⟨by decide, by decide, by decide,
    C4_guess_recorded_iteration_zero [9] [[1]] "" _ _ _ (by decide) (by decide)
      (by decide)⟩

/-- C5 counterexample: `prepare_document_global` on residual rows containing
values at and above the scan's `1e99` sentinel reports a `rrmswfe_final` that
is not the minimum over all runs and iterations (the strict-`<` scan never
fires, leaving the initial index `(0, 0)`). -/
theorem C5_counterexample :
    (prepare_document_global 0 0 [] 0 [[mkRat (2 * 10 ^ 99) 1], [sentinel]]
        false
        { x := [], x_iter := [[[4]], [[5]]], f := 0,
          fun_iter := [[7], [8]], time := 0 }).rrmswfe_final ≠
      min_all [[mkRat (2 * 10 ^ 99) 1], [sentinel]] := by
  decide

/-- C5 (amended): for a multi-start document whose `rrmswfe_iter` is a
nonempty list of nonempty per-run rows all of whose entries are below the
`1e99` sentinel, `prepare_document_global` reports `rrmswfe_final` equal to
the minimum residual RMS WFE over all runs and iterations, with `cost_final`
read at the same (minimizing) run/iteration index; `correct_global_document`
recomputes `rrmswfe_final` to that true minimum under the same proviso; and
`correct_global_document` is idempotent unconditionally. -/
theorem C5_global_min_tracking_amended (sim codex : Nat) (tp : List ℚ)
    (trw : ℚ) (rr : List (List ℚ)) (normed : Bool) (r : GOptResult)
    (hne : rr ≠ []) (hrows : ∀ v ∈ rr, v ≠ [])
    (hlt : ∀ v ∈ rr, ∀ x ∈ v, x < sentinel) :
    (prepare_document_global sim codex tp trw rr normed r).rrmswfe_final =
      min_all rr ∧
    (∃ o j, o < rr.length ∧ j < (rr.getD o []).length ∧
      (rr.getD o []).getD j 0 = min_all rr ∧
      (prepare_document_global sim codex tp trw rr normed r).cost_final =
        (r.fun_iter.getD o []).getD j 0) ∧
    (∀ d : GlobalDoc, d.rrmswfe_iter ≠ [] → (∀ v ∈ d.rrmswfe_iter, v ≠ []) →
      (∀ v ∈ d.rrmswfe_iter, ∀ x ∈ v, x < sentinel) →
      (correct_global_document d).rrmswfe_final = min_all d.rrmswfe_iter) ∧
    (∀ d : GlobalDoc,
      correct_global_document (correct_global_document d) =
        correct_global_document d) := by
  obtain ⟨h1, h2, h3, h4⟩ := find_lowest_idx_spec rr hne hrows hlt
  refine ⟨?_, ?_, ?_, ?_⟩
  · show (rr.getD (find_lowest_idx rr).1 []).getD (find_lowest_idx rr).2.1 0 =
      min_all rr
    rw [h3, h4]
  · exact ⟨(find_lowest_idx rr).1, (find_lowest_idx rr).2.1, h1, h2,
      by rw [h3, h4], rfl⟩
  · intro d hdne hdrows hdlt
    obtain ⟨_, _, h3', h4'⟩ := find_lowest_idx_spec d.rrmswfe_iter hdne hdrows hdlt
    show (d.rrmswfe_iter.getD (find_lowest_idx d.rrmswfe_iter).1 []).getD
        (find_lowest_idx d.rrmswfe_iter).2.1 0 = min_all d.rrmswfe_iter
    rw [h3', h4']
  · intro d
    rfl

/-- Witness for C5 (amended) on a two-run document whose minimum sits in the
first run's second iteration. -/
theorem C5_global_min_tracking_amended_witness :
    ([[2, 1], [3]] : List (List ℚ)) ≠ [] ∧
    (∀ v ∈ ([[2, 1], [3]] : List (List ℚ)), v ≠ []) ∧
    (∀ v ∈ ([[2, 1], [3]] : List (List ℚ)), ∀ x ∈ v, x < sentinel) ∧
    ((prepare_document_global 0 0 [] 0 [[2, 1], [3]] false
        { x := [], x_iter := [[[4]], [[5]]], f := 0,
          fun_iter := [[10, 20], [30]], time := 0 }).rrmswfe_final =
      min_all [[2, 1], [3]] ∧
    (∃ o j, o < ([[2, 1], [3]] : List (List ℚ)).length ∧
      j < (([[2, 1], [3]] : List (List ℚ)).getD o []).length ∧
      (([[2, 1], [3]] : List (List ℚ)).getD o []).getD j 0 =
        min_all [[2, 1], [3]] ∧
      (prepare_document_global 0 0 [] 0 [[2, 1], [3]] false
          { x := [], x_iter := [[[4]], [[5]]], f := 0,
            fun_iter := [[10, 20], [30]], time := 0 }).cost_final =
        (([[10, 20], [30]] : List (List ℚ)).getD o []).getD j 0) ∧
    (∀ d : GlobalDoc, d.rrmswfe_iter ≠ [] → (∀ v ∈ d.rrmswfe_iter, v ≠ []) →
      (∀ v ∈ d.rrmswfe_iter, ∀ x ∈ v, x < sentinel) →
      (correct_global_document d).rrmswfe_final = min_all d.rrmswfe_iter) ∧
    (∀ d : GlobalDoc,
      correct_global_document (correct_global_document d) =
        correct_global_document d)) :=
  ⟨by decide, by decide, by decide,
    C5_global_min_tracking_amended 0 0 [] 0 [[2, 1], [3]] false
      { x := [], x_iter := [[[4]], [[5]]], f := 0,
        fun_iter := [[10, 20], [30]], time := 0 }
      (by decide) (by decide) (by decide)⟩

/-- C6: for a fixed trial coefficient vector (hence a fixed per-plane
evaluator), the objective scalar is invariant under any permutation of the
focus-plane list: the per-plane costs are permuted alike and their sum is
permutation-invariant. -/
theorem C6_objective_plane_order_invariant (rfp : FocusPlane → ℚ)
    (planes planes' : List FocusPlane) (h : planes.Perm planes') :
    optfcn rfp planes = optfcn rfp planes' := by
  unfold optfcn net_costfcn_reducer
  exact List.Perm.sum_eq (h.map rfp)

/-- Witness for C6: swapping two concrete focus planes. -/
theorem C6_objective_plane_order_invariant_witness :
    ([⟨[1], [2], 3⟩, ⟨[4], [5], 6⟩] : List FocusPlane).Perm
      [⟨[4], [5], 6⟩, ⟨[1], [2], 3⟩] ∧
    optfcn (fun p => p.defocus) [⟨[1], [2], 3⟩, ⟨[4], [5], 6⟩] =
      optfcn (fun p => p.defocus) [⟨[4], [5], 6⟩, ⟨[1], [2], 3⟩] :=
  ⟨by decide,
    C6_objective_plane_order_invariant (fun p => p.defocus) _ _ (by decide)⟩

/-- C7 counterexample: the claimed stable field set contains `nfev`, but the
dict built by `prepare_document_global` has no `nfev` key. -/
theorem C7_counterexample :
    "nfev" ∈ spec_field_set ∧ "nfev" ∉ prepare_document_global_keys := by
  exact ⟨by decide, by decide⟩

/-- C7 (amended): the single-start document carries exactly the claimed field
set; the multi-start/global document carries exactly the claimed field set
minus `nfev`. -/
theorem C7_field_sets_amended :
    prepare_document_local_keys.Perm spec_field_set ∧
    prepare_document_global_keys.Perm (spec_field_set.erase "nfev") := by
  exact ⟨by decide, by decide⟩

/-- C8: the diagnostic parser extracts one cost per iterate-report line, in
order of occurrence, converting the Fortran double-precision exponent
notation; on a captured text whose iterate-1 line reads
`At iterate    1    f=  3.0000000D+02` the parsed cost at index 1 equals
300.0. -/
theorem C8_parse_costs_concrete :
    parse_cost_by_iter_lbfgsb sample_lbfgsb_text = some [5, 300] ∧
    (parse_cost_by_iter_lbfgsb sample_lbfgsb_text).bind (fun l => l.get? 1) =
      some 300 := by
  exact ⟨by decide, by decide⟩

/-- C9: on a nonempty queue, `get` returns the leftmost item and removes it
from the in-memory queue but never writes the queue to disk — the `persist()`
call after the `return` statement is unreachable — so the on-disk pickle
still holds the pre-`get` contents; `put` and `mark_done` do persist the
queue (and `peek` leaves both queue and disk unchanged). -/
theorem C9_get_never_persists {α : Type} (s : PersistentQueue α) (x : α)
    (rest : List α) (h : s.q = x :: rest) (y : α) :
    s.get = some (x, { q := rest, disk := s.disk }) ∧
    (s.put y).q = s.q ++ [y] ∧ (s.put y).disk = s.q ++ [y] ∧
    s.mark_done = some { q := rest, disk := rest } ∧
    s.peek = some (x, s) := by
  obtain ⟨q, disk⟩ := s
  cases h
  exact ⟨rfl, rfl, rfl, rfl, rfl⟩

/-- Witness for C9 on a concrete queue whose disk lags the memory. -/
theorem C9_get_never_persists_witness :
    (({ q := [1, 2], disk := [5] } : PersistentQueue Nat).q = 1 :: [2]) ∧
    (({ q := [1, 2], disk := [5] } : PersistentQueue Nat).get =
        some (1, { q := [2], disk := [5] }) ∧
      (({ q := [1, 2], disk := [5] } : PersistentQueue Nat).put 7).q =
        [1, 2] ++ [7] ∧
      (({ q := [1, 2], disk := [5] } : PersistentQueue Nat).put 7).disk =
        [1, 2] ++ [7] ∧
      ({ q := [1, 2], disk := [5] } : PersistentQueue Nat).mark_done =
        some { q := [2], disk := [2] } ∧
      ({ q := [1, 2], disk := [5] } : PersistentQueue Nat).peek =
        some (1, { q := [1, 2], disk := [5] })) :=
  ⟨rfl, C9_get_never_persists { q := [1, 2], disk := [5] } 1 [2] rfl 7⟩

/-- C10 counterexample: on a document whose residual entries are not all below
the `1e99` sentinel, `recheck_min_rrmswfe_document` (true minimum) and
`correct_global_document` (sentinel scan, which never fires) assign different
values to `rrmswfe_final`. -/
theorem C10_counterexample :
    (recheck_min_rrmswfe_document big_entries_doc).rrmswfe_final ≠
      (correct_global_document big_entries_doc).rrmswfe_final := by
  decide

/-- C10 (amended): for a global document whose `rrmswfe_iter` is a nonempty
list of nonempty rows all of whose entries are below the `1e99` sentinel,
both routines assign `rrmswfe_final` the minimum over all entries;
`recheck_min_rrmswfe_document` leaves `cost_final` unchanged while
`correct_global_document` replaces it with the cost at a minimizing
run/iteration index; and neither routine changes any other field of the
document. -/
theorem C10_recheck_vs_correct_amended (d : GlobalDoc)
    (hne : d.rrmswfe_iter ≠ []) (hrows : ∀ v ∈ d.rrmswfe_iter, v ≠ [])
    (hlt : ∀ v ∈ d.rrmswfe_iter, ∀ x ∈ v, x < sentinel) :
    (recheck_min_rrmswfe_document d).rrmswfe_final = min_all d.rrmswfe_iter ∧
    (correct_global_document d).rrmswfe_final = min_all d.rrmswfe_iter ∧
    (recheck_min_rrmswfe_document d).cost_final = d.cost_final ∧
    (∃ o j, o < d.rrmswfe_iter.length ∧
      j < (d.rrmswfe_iter.getD o []).length ∧
      (d.rrmswfe_iter.getD o []).getD j 0 = min_all d.rrmswfe_iter ∧
      (correct_global_document d).cost_final =
        (d.cost_iter.getD o []).getD j 0) ∧
    { recheck_min_rrmswfe_document d with rrmswfe_final := d.rrmswfe_final } = d ∧
    { correct_global_document d with rrmswfe_final := d.rrmswfe_final, cost_final := d.cost_final } = d := by
  obtain ⟨h1, h2, h3, h4⟩ := find_lowest_idx_spec d.rrmswfe_iter hne hrows hlt
  refine ⟨rfl, ?_, rfl, ?_, ?_, ?_⟩
  · show (d.rrmswfe_iter.getD (find_lowest_idx d.rrmswfe_iter).1 []).getD
      (find_lowest_idx d.rrmswfe_iter).2.1 0 = min_all d.rrmswfe_iter
    rw [h3, h4]
  · exact ⟨(find_lowest_idx d.rrmswfe_iter).1,
      (find_lowest_idx d.rrmswfe_iter).2.1, h1, h2, by rw [h3, h4], rfl⟩
  · cases d
    rfl
  · cases d
    rfl

/-- Witness for C10 (amended) on a concrete two-run document. -/
theorem C10_recheck_vs_correct_amended_witness :
    small_entries_doc.rrmswfe_iter ≠ [] ∧
    (∀ v ∈ small_entries_doc.rrmswfe_iter, v ≠ []) ∧
    (∀ v ∈ small_entries_doc.rrmswfe_iter, ∀ x ∈ v, x < sentinel) ∧
    ((recheck_min_rrmswfe_document small_entries_doc).rrmswfe_final =
      min_all small_entries_doc.rrmswfe_iter ∧
    (correct_global_document small_entries_doc).rrmswfe_final =
      min_all small_entries_doc.rrmswfe_iter ∧
    (recheck_min_rrmswfe_document small_entries_doc).cost_final =
      small_entries_doc.cost_final ∧
    (∃ o j, o < small_entries_doc.rrmswfe_iter.length ∧
      j < (small_entries_doc.rrmswfe_iter.getD o []).length ∧
      (small_entries_doc.rrmswfe_iter.getD o []).getD j 0 =
        min_all small_entries_doc.rrmswfe_iter ∧
      (correct_global_document small_entries_doc).cost_final =
        (small_entries_doc.cost_iter.getD o []).getD j 0) ∧
    { recheck_min_rrmswfe_document small_entries_doc with
        rrmswfe_final := small_entries_doc.rrmswfe_final } = small_entries_doc ∧
    { correct_global_document small_entries_doc with rrmswfe_final := small_entries_doc.rrmswfe_final, cost_final := small_entries_doc.cost_final } = small_entries_doc) :=
  ⟨by decide, by decide, by decide,
    C10_recheck_vs_correct_amended small_entries_doc
      (by decide) (by decide) (by decide)⟩

end Iris
